import Mathlib

/-!
Verification development for the `Poly` class of Effective-Quadratures
(`equadratures/poly.py`).

The Python source is shallowly embedded: floating-point scalars are modelled
as rationals, IEEE NaN entries of a model-evaluation column are modelled as
`none` in `Option ℚ`, numpy arrays become lists (row-major lists of lists for
matrices), and the external collaborators that `poly.py` imports
(`Parameter._get_orthogonal_polynomial`, `Quadrature`, `Solver`,
`Subsampling`) are supplied as components of an `Env` record, since their
code is not part of the file under study.  The recursion between `set_model`
and `_set_coefficients` (triggered by the NaN-recovery path) is made total
with an explicit fuel argument; claims quantify over sufficient fuel.
-/

namespace EQ

/-- A sample point: one rational coordinate per dimension. -/
abbrev Pt := List ℚ

/-- A multi-index row of the basis: one exponent per dimension. -/
abbrev MIdx := List ℕ

/-- A model evaluation: `none` models an IEEE NaN entry. -/
abbrev EVal := Option ℚ

/-- A row-major matrix of rationals. -/
abbrev Mat := List (List ℚ)

/-- Numeric content of an evaluation.  It is only applied on paths that the
NaN check of `_set_coefficients` has already established to be NaN-free, so
the default value for `none` is never observable there. -/
def ratOf (v : EVal) : ℚ := v.getD 0

/-- One tensor sub-grid record of a sparse-grid quadrature
(an element of `self.quadrature.list`): its points, weights and the
multi-index set of its local basis (`tensor.basis.elements`). -/
structure Tensor where
  points : List Pt
  weights : List ℚ
  elements : List MIdx
deriving DecidableEq

/-- The data held by a `Quadrature` object as consumed by `poly.py`:
the flattened global points/weights, and (for the sparse-grid mesh) the
tensor sub-grid list with the combination-technique scalar weights. -/
structure Quad where
  points : List Pt
  weights : List ℚ
  list : List Tensor
  sparseWeights : List ℚ
deriving DecidableEq

/-- The empty quadrature, used as the initial value before
`_set_points_and_weights` runs. -/
def emptyQuad : Quad := { points := [], weights := [], list := [], sparseWeights := [] }

/-- The external collaborators of `Poly`, abstracted as functions.
`sqrt` stands for `np.sqrt`; `orth1` and `orth1d` are the value and
first-derivative tables returned by
`parameters[i]._get_orthogonal_polynomial` (parameter index, order, point);
`gen` is the `Quadrature` constructor for the non-user-defined meshes;
`sel` is the subsampling algorithm selected by name; `solve` and
`solveGrad` are the 2- and 4-argument forms of the solver selected by
`Solver(method).get_solver()`. -/
structure Env where
  sqrt : ℚ → ℚ
  orth1 : ℕ → ℕ → ℚ → ℚ
  orth1d : ℕ → ℕ → ℚ → ℚ
  gen : String → Option (List Pt) → Quad
  sel : String → Mat → ℤ → List ℕ
  solve : Option String → Mat → List ℚ → List ℚ
  solveGrad : Option String → Mat → List ℚ → Mat → List ℚ → List ℚ

/-- Warnings printed by `poly.py` that the claims observe.
`Warn.nan k n` is the warning of `_set_coefficients` reporting `k` NaNs out
of `n` model evaluations; `Warn.methodNotDeclared` is the constructor
warning for an absent method. -/
inductive Warn where
  | nan (count : ℕ) (total : ℕ)
  | methodNotDeclared
deriving DecidableEq

/-- Abnormal terminations of the embedded code.  `assertionFailed` is the
`assert` on the row count in `set_model`; `raiseTupleOfValueError` is the
Python-2-style statement `raise(ValueError, ...)` on the column-count check,
which in Python 3 raises a `TypeError` (a tuple is not an exception);
`attributeFailure` models dereferencing an attribute of `None` (reached when
neither a model nor stored outputs are available, or when gradient mode has
no gradient data); `fuelExhausted` is an artifact of the fuel encoding and
is never returned for sufficient fuel. -/
inductive Err where
  | assertionFailed
  | raiseTupleOfValueError
  | attributeFailure
  | fuelExhausted
deriving DecidableEq

/-- The mutable state of a `Poly` object (the attributes of `self` that
`poly.py` reads or writes).  The solver object built by `_set_solver` is
represented by the method string it was built from (`solverKey`), so that
states stay decidably comparable; `env.solve solverKey` is the solver
function itself. -/
structure PolyState where
  method : Option String
  mesh : String
  samplingRatio : ℚ
  subAlgName : Option String
  inputs : Option (List Pt)
  outputs : Option (List EVal)
  dims : ℕ
  basisType : String
  basisElements : List MIdx
  gradFlag : ℕ
  solverKey : Option String
  quadrature : Quad
  qpoints : List Pt
  qweights : List ℚ
  A : Mat
  modelEvals : List EVal
  gradEvals : List ℚ
  coefficients : List ℚ
  statistics : Option Unit
  warnings : List Warn
deriving DecidableEq

/-- A blank state (all fields at their pre-construction defaults). -/
def emptyState : PolyState where
  method := none
  mesh := ""
  samplingRatio := 1
  subAlgName := none
  inputs := none
  outputs := none
  dims := 0
  basisType := ""
  basisElements := []
  gradFlag := 0
  solverKey := none
  quadrature := emptyQuad
  qpoints := []
  qweights := []
  A := []
  modelEvals := []
  gradEvals := []
  coefficients := []
  statistics := none
  warnings := []

/-! ### numpy-style helpers -/

/-- Embeds `int(np.max(basis))`: the largest entry of a 2-D exponent array
(`0` for an empty array, which numpy would reject). -/
def maxExp (basis : List MIdx) : ℕ := (basis.flatMap id).foldr max 0

/-- Embeds `int(np.max(basis[:, k]))`: the largest entry of column `k`. -/
def maxExpCol (basis : List MIdx) (k : ℕ) : ℕ :=
  (basis.map (fun row => row.getD k 0)).foldr max 0

/-- Embeds `int(np.round q)` with numpy's round-half-to-even convention. -/
def npRound (q : ℚ) : ℤ :=
  let f := ⌊q⌋
  let r := q - (f : ℚ)
  if r < 1/2 then f else if 1/2 < r then f + 1 else if f % 2 = 0 then f else f + 1

/-- Embeds `np.argwhere(np.isnan(evals))[:,0]` on an `(n,1)` column:
the row indices holding a NaN, in increasing order. -/
def nanIndices (l : List EVal) : List ℕ :=
  (List.range l.length).filter (fun i => decide (l.getD i (some 0) = none))

/-- Embeds `np.delete(l, idxs, axis=0)`: drop the rows whose index occurs in
`idxs`, keeping the remaining rows in order. -/
def npDelete (l : List α) (idxs : List ℕ) (d : α) : List α :=
  ((List.range l.length).filter (fun i => decide (i ∉ idxs))).map (fun i => l.getD i d)

/-- Embeds the row computation of `np.unique(rows, axis=0)`: the distinct
rows sorted in increasing lexicographic order. -/
def sortDedupLex [LinearOrder α] [DecidableEq α] (l : List α) : List α :=
  l.toFinset.sort (· ≤ ·)

/-! ### Basis evaluation (`get_poly`, `get_poly_grad`, `get_poly_hess`) -/

/-- Embeds the orders that `get_poly` passes to each dimension's
`_get_orthogonal_polynomial` evaluator (lines 615 and 621 of `poly.py`):
in the univariate shortcut `int(np.max(basis))` over the whole basis, and
otherwise `int(np.max(basis[:, i]))` for dimension `i`. -/
def get_poly_orders (basis : List MIdx) : List ℕ :=
  let dims := (basis.headD []).length
  if dims = 1 then [maxExp basis]
  else (List.range dims).map (fun i => maxExpCol basis i)

/-- Embeds the orders that `get_poly_grad` passes to the per-dimension
evaluators (lines 659 and 665 of `poly.py`); textually the same requests as
`get_poly`. -/
def get_poly_grad_orders (basis : List MIdx) : List ℕ :=
  let dims := (basis.headD []).length
  if dims = 1 then [maxExp basis]
  else (List.range dims).map (fun i => maxExpCol basis i)

/-- Embeds the orders that `get_poly_hess` passes to the per-dimension
evaluators (lines 712 and 718-719 of `poly.py`): `int(np.max(basis))` in the
univariate shortcut, and `int(np.max(basis[:, i]) + 1)` per dimension
otherwise. -/
def get_poly_hess_orders (basis : List MIdx) : List ℕ :=
  let dims := (basis.headD []).length
  if dims = 1 then [maxExp basis]
  else (List.range dims).map (fun i => maxExpCol basis i + 1)

/-- Embeds `get_poly` (lines 588-628 of `poly.py`).  The result has one row
per basis element and one column per point, except in the univariate
shortcut, where (as in the source) the whole table of orders
`0 .. max` is returned.  Table lookups `p[k][basis[:,k]]` are modelled by
applying the evaluator function at the looked-up order. -/
def get_poly (env : Env) (basis : List MIdx) (pts : List Pt) : Mat :=
  let dims := (basis.headD []).length
  if dims = 1 then
    (List.range (maxExp basis + 1)).map (fun ord =>
      pts.map (fun x => env.orth1 0 ord (x.headD 0)))
  else
    basis.map (fun row =>
      pts.map (fun x =>
        ((List.range dims).map (fun k => env.orth1 k (row.getD k 0) (x.getD k 0))).prod))

/-- Embeds `get_poly_grad` without the optional `dim_index` restriction
(`_set_coefficients` always calls it with all dimensions).  The univariate
branch of the source returns the bare derivative table; it is wrapped in a
one-element list here purely for typing. -/
def get_poly_grad (env : Env) (basis : List MIdx) (pts : List Pt) : List Mat :=
  let dims := (basis.headD []).length
  if dims = 1 then
    [(List.range (maxExp basis + 1)).map (fun ord =>
      pts.map (fun x => env.orth1d 0 ord (x.headD 0)))]
  else
    (List.range dims).map (fun v =>
      basis.map (fun row =>
        pts.map (fun x =>
          ((List.range dims).map (fun k =>
            if k = v then env.orth1d k (row.getD k 0) (x.getD k 0)
            else env.orth1 k (row.getD k 0) (x.getD k 0))).prod)))

/-- C8 counterexample input: the one-dimensional basis with single row `[2]`. -/
def c8Basis : List MIdx := [[2]]

/-- C8 counterexample: for the one-dimensional basis `[[2]]` the Hessian
primitive requests order `2 = np.max(basis)`, not the claimed
`np.max(basis) + 1 = 3`; the claim fails in the univariate branch. -/
theorem get_poly_hess_univariate_no_plus_one :
    get_poly_hess_orders c8Basis ≠ [maxExp c8Basis + 1] := by
  decide

/-- C8 (amended): the value and gradient primitives request the maximum
exponent, and `get_poly_hess` requests the per-dimension maximum exponent
plus one exactly in the multivariate branch; in the univariate branch it
requests the plain maximum exponent, the same order as the value and
gradient primitives. -/
theorem get_poly_hess_orders_spec (basis : List MIdx) :
    get_poly_grad_orders basis = get_poly_orders basis ∧
    get_poly_hess_orders basis =
      (if (basis.headD []).length = 1 then get_poly_orders basis
       else (get_poly_orders basis).map (fun n => n + 1)) := by
  constructor
  · rfl
  · unfold get_poly_hess_orders get_poly_orders
    split_ifs <;> simp_all

/-! ### Design construction (`_set_points_and_weights`) -/

/-- Modelled from the spec: the DesignGenerator (`Quadrature`, whose class
is not under src/) returns, for the user-defined mesh, exactly the stored
user-supplied points (spec 4.1: supplying explicit sample points forces
mesh = user-defined and stores those points; spec 6: generate(parameters,
basis, mesh, userPoints)).  The accompanying weights are uniform; no claim
depends on their values.  Every other mesh is answered by the abstract
environment. -/
def generate (env : Env) (mesh : String) (points : Option (List Pt)) : Quad :=
  match mesh, points with
  | "user-defined", some pts =>
      { points := pts,
        weights := pts.map (fun _ => 1 / (pts.length : ℚ)),
        list := [], sparseWeights := [] }
  | _, _ => env.gen mesh points

/-- Embeds `A = np.mat(np.diag(np.sqrt(w))) * P.T` with `P = get_poly(pts)`
(lines 199-201, 211-213, 403-404 and 425-427 of `poly.py`): entry `(i, j)`
is the square root of weight `i` times entry `(j, i)` of `P`. -/
def designMatrix (env : Env) (basis : List MIdx) (pts : List Pt) (wts : List ℚ) : Mat :=
  let P := get_poly env basis pts
  (List.range wts.length).map (fun i =>
    (List.range P.length).map (fun j => env.sqrt (wts.getD i 0) * ((P.getD j []).getD i 0)))

/-- Embeds `_set_points_and_weights` (lines 188-214 of `poly.py`).  With a
subsampling algorithm the design matrix of the raw design is built, the
selector picks row indices `z`, and the raw points/weights at `z` are
retained with the weights renormalised by their sum; the stored `A` is the
raw-design matrix.  Without subsampling the raw design and its design
matrix are stored as they are. -/
def set_points_and_weights (env : Env) (st : PolyState) : PolyState :=
  let quadrature := generate env st.mesh st.inputs
  let qp := quadrature.points
  let qw := quadrature.weights
  match st.subAlgName with
  | some alg =>
      let A := designMatrix env st.basisElements qp qw
      let nn := (get_poly env st.basisElements qp).length
      let z := env.sel alg A (npRound (st.samplingRatio * (nn : ℚ)))
      let wz := z.map (fun i => qw.getD i 0)
      { st with quadrature := quadrature,
                qpoints := z.map (fun i => qp.getD i []),
                qweights := wz.map (fun w => w / wz.sum),
                A := A }
  | none =>
      { st with quadrature := quadrature,
                qpoints := qp,
                qweights := qw,
                A := designMatrix env st.basisElements qp qw }

theorem sum_map_div (l : List ℚ) (s : ℚ) : (l.map (fun w => w / s)).sum = l.sum / s := by
  induction l with
  | nil => simp
  | cons a t ih => simp [ih, add_div]

@[simp] theorem spw_mesh (env : Env) (st : PolyState) :
    (set_points_and_weights env st).mesh = st.mesh := by
  unfold set_points_and_weights; cases st.subAlgName <;> rfl

@[simp] theorem spw_method (env : Env) (st : PolyState) :
    (set_points_and_weights env st).method = st.method := by
  unfold set_points_and_weights; cases st.subAlgName <;> rfl

@[simp] theorem spw_samplingRatio (env : Env) (st : PolyState) :
    (set_points_and_weights env st).samplingRatio = st.samplingRatio := by
  unfold set_points_and_weights; cases st.subAlgName <;> rfl

@[simp] theorem spw_subAlgName (env : Env) (st : PolyState) :
    (set_points_and_weights env st).subAlgName = st.subAlgName := by
  unfold set_points_and_weights; cases st.subAlgName <;> rfl

@[simp] theorem spw_inputs (env : Env) (st : PolyState) :
    (set_points_and_weights env st).inputs = st.inputs := by
  unfold set_points_and_weights; cases st.subAlgName <;> rfl

@[simp] theorem spw_outputs (env : Env) (st : PolyState) :
    (set_points_and_weights env st).outputs = st.outputs := by
  unfold set_points_and_weights; cases st.subAlgName <;> rfl

@[simp] theorem spw_dims (env : Env) (st : PolyState) :
    (set_points_and_weights env st).dims = st.dims := by
  unfold set_points_and_weights; cases st.subAlgName <;> rfl

@[simp] theorem spw_basisElements (env : Env) (st : PolyState) :
    (set_points_and_weights env st).basisElements = st.basisElements := by
  unfold set_points_and_weights; cases st.subAlgName <;> rfl

@[simp] theorem spw_gradFlag (env : Env) (st : PolyState) :
    (set_points_and_weights env st).gradFlag = st.gradFlag := by
  unfold set_points_and_weights; cases st.subAlgName <;> rfl

@[simp] theorem spw_solverKey (env : Env) (st : PolyState) :
    (set_points_and_weights env st).solverKey = st.solverKey := by
  unfold set_points_and_weights; cases st.subAlgName <;> rfl

@[simp] theorem spw_modelEvals (env : Env) (st : PolyState) :
    (set_points_and_weights env st).modelEvals = st.modelEvals := by
  unfold set_points_and_weights; cases st.subAlgName <;> rfl

@[simp] theorem spw_gradEvals (env : Env) (st : PolyState) :
    (set_points_and_weights env st).gradEvals = st.gradEvals := by
  unfold set_points_and_weights; cases st.subAlgName <;> rfl

@[simp] theorem spw_coefficients (env : Env) (st : PolyState) :
    (set_points_and_weights env st).coefficients = st.coefficients := by
  unfold set_points_and_weights; cases st.subAlgName <;> rfl

@[simp] theorem spw_statistics (env : Env) (st : PolyState) :
    (set_points_and_weights env st).statistics = st.statistics := by
  unfold set_points_and_weights; cases st.subAlgName <;> rfl

@[simp] theorem spw_warnings (env : Env) (st : PolyState) :
    (set_points_and_weights env st).warnings = st.warnings := by
  unfold set_points_and_weights; cases st.subAlgName <;> rfl

@[simp] theorem spw_basisType (env : Env) (st : PolyState) :
    (set_points_and_weights env st).basisType = st.basisType := by
  unfold set_points_and_weights; cases st.subAlgName <;> rfl

/-- Rational stand-in for `np.sqrt`: correct on the squares that the
concrete runs below actually pass to it, the identity elsewhere (the claims
evaluated on those runs do not depend on the values where it is fake). -/
def ratSqrt : ℚ → ℚ := fun q =>
  if q = 4 then 2 else if q = 9 then 3
  else if q = 1/4 then 1/2 else if q = 1/9 then 1/3 else q

/-- A concrete environment for counterexample and witness runs: monomial
orthogonal tables, an identity solver, a selector always retaining row 1,
and a generator producing a fixed two-point design with unit weights. -/
def envC : Env where
  sqrt := ratSqrt
  orth1 := fun _ ord x => x ^ ord
  orth1d := fun _ ord x => (ord : ℚ) * x ^ (ord - 1)
  gen := fun _ _ => { points := [[0], [1]], weights := [1, 1], list := [], sparseWeights := [] }
  sel := fun _ _ _ => [1]
  solve := fun _ _ b => b
  solveGrad := fun _ _ b _ _ => b

/-- A concrete state configured with a subsampling algorithm, used by the C2
counterexample and the C6 witness. -/
def stSub : PolyState :=
  { emptyState with
    method := some ("compressive-sensing"), mesh := "monte-carlo",
    subAlgName := some ("qr"), basisElements := [[0]], dims := 1,
    solverKey := some ("compressive-sensing") }

/-- A concrete state with no subsampling algorithm, used by witnesses. -/
def stNoSub : PolyState :=
  { emptyState with
    method := some ("least-squares"), mesh := "tensor-grid",
    subAlgName := none, basisElements := [[0], [1]], dims := 1,
    solverKey := some ("least-squares") }

/-- C2 counterexample: with a subsampling algorithm configured, the stored
design matrix is the raw oversampled one (two rows here) and is NOT
recomputed from the final subsampled design (one point here) — the stored
`A` differs from the square-root-weight-scaled basis evaluation of the
design the object ends up holding. -/
theorem stored_A_stale_after_subsampling :
    (set_points_and_weights envC stSub).A ≠
      designMatrix envC (set_points_and_weights envC stSub).basisElements
        (set_points_and_weights envC stSub).qpoints
        (set_points_and_weights envC stSub).qweights := by
  with_unfolding_all decide

/-- C2 (amended): after `_set_points_and_weights` the stored `A` always
equals the square-root-weight-scaled basis evaluation of the RAW generated
design; only when no subsampling algorithm is configured does the raw design
coincide with the final retained design, and only then is `A` the design
matrix of the design the object ends up holding. -/
theorem stored_A_is_raw_design_matrix (env : Env) (st : PolyState) :
    (set_points_and_weights env st).A =
      designMatrix env st.basisElements (generate env st.mesh st.inputs).points
        (generate env st.mesh st.inputs).weights ∧
    (st.subAlgName = none →
      (set_points_and_weights env st).A =
        designMatrix env (set_points_and_weights env st).basisElements
          (set_points_and_weights env st).qpoints
          (set_points_and_weights env st).qweights) := by
  unfold set_points_and_weights
  cases h : st.subAlgName <;> simp [h]

/-- C2 witness: the amended theorem applied at a concrete no-subsampling
state, discharging its hypothesis. -/
theorem stored_A_is_raw_design_matrix_witness :
    (set_points_and_weights envC stNoSub).A =
      designMatrix envC (set_points_and_weights envC stNoSub).basisElements
        (set_points_and_weights envC stNoSub).qpoints
        (set_points_and_weights envC stNoSub).qweights :=
  (stored_A_is_raw_design_matrix envC stNoSub).2 rfl

/-- C6: with a subsampling algorithm configured, the retained points are
exactly the raw points at the selector indices `z`, the retained weights are
the raw weights at `z` divided by their sum (hence sum to 1 whenever that
sum is nonzero); with no subsampling algorithm the generator weights are
stored verbatim, unnormalised. -/
theorem subsampled_design_retention (env : Env) (st : PolyState) :
    (∀ alg, st.subAlgName = some alg →
      let raw := generate env st.mesh st.inputs
      let A := designMatrix env st.basisElements raw.points raw.weights
      let z := env.sel alg A
        (npRound (st.samplingRatio * ((get_poly env st.basisElements raw.points).length : ℚ)))
      let wz := z.map (fun i => raw.weights.getD i 0)
      (set_points_and_weights env st).qpoints = z.map (fun i => raw.points.getD i []) ∧
      (set_points_and_weights env st).qweights = wz.map (fun w => w / wz.sum) ∧
      (wz.sum ≠ 0 → (set_points_and_weights env st).qweights.sum = 1)) ∧
    (st.subAlgName = none →
      (set_points_and_weights env st).qweights = (generate env st.mesh st.inputs).weights ∧
      (set_points_and_weights env st).qpoints = (generate env st.mesh st.inputs).points) := by
  constructor
  · intro alg halg
    refine ⟨by simp [set_points_and_weights, halg], by simp [set_points_and_weights, halg], ?_⟩
    intro hsum
    simp only [set_points_and_weights, halg]
    rw [sum_map_div, div_self hsum]
  · intro halg
    constructor <;> simp [set_points_and_weights, halg]

/-- C6 witness: the retention theorem applied at a concrete subsampled
state; the selector keeps row 1, so the single retained weight is 1. -/
theorem subsampled_design_retention_witness :
    (set_points_and_weights envC stSub).qweights.sum = 1 :=
  (((subsampled_design_retention envC stSub).1 "qr" rfl).2.2) (by with_unfolding_all decide)

/-! ### Constructor configuration resolution (`__init__`) -/

/-- The optional sampling-argument dictionary of the constructor: each field
is `some` exactly when the corresponding key is present. -/
structure SArgs where
  mesh : Option String
  samplingRatio : Option ℚ
  subAlg : Option String
  samplePoints : Option (List Pt)
  sampleOutputs : Option (List EVal)

/-- Embeds the method-to-mesh dispatch chain of `__init__` (lines 89-99 of
`poly.py`).  For a method outside the recognised set no assignment happens
in the source (the attribute stays undefined); that case is represented by
the sentinel empty string and lies outside every claim. -/
def methodMeshCode (basisType m : String) : String :=
  if m = "numerical-integration" ∨ m = "integration" then basisType
  else if m = "least-squares" then "tensor-grid"
  else if m = "least-squares-with-gradients" then "tensor-grid"
  else if m = "compressed-sensing" ∨ m = "compressive-sensing" then "monte-carlo"
  else if m = "minimum-norm" then "monte-carlo"
  else ""

/-- Embeds the configuration part of `Poly.__init__` (lines 63-113 of
`poly.py`) for the fields the claims observe: mesh resolution from the
method, sampling-config overrides applied in source order (an explicit mesh
first, then sample points forcing the user-defined mesh), then
`_set_solver`, `_set_subsampling_algorithm` (represented by the stored
algorithm name) and `_set_points_and_weights`.  The parameter and basis
order bookkeeping is summarised by the `dims`, `basisType` and
`basisElements` arguments. -/
def initPoly (env : Env) (dims : ℕ) (basisType : String) (basisElements : List MIdx)
    (method : Option String) (sargs : Option SArgs) : PolyState :=
  let st0 : PolyState :=
    { emptyState with
      method := method, dims := dims, basisType := basisType,
      basisElements := basisElements }
  match method with
  | none => { st0 with warnings := [Warn.methodNotDeclared] }
  | some m =>
    let gradFlag : ℕ := if m = "least-squares-with-gradients" then 1 else 0
    let mesh0 := methodMeshCode basisType m
    let st1 :=
      match sargs with
      | none => { st0 with mesh := mesh0, gradFlag := gradFlag }
      | some sa =>
        let mesh1 := match sa.mesh with | some mm => mm | none => mesh0
        let ratio1 := match sa.samplingRatio with | some r => r | none => st0.samplingRatio
        let sub1 := match sa.subAlg with | some s => some s | none => st0.subAlgName
        let inpMesh := match sa.samplePoints with
          | some pts => (some pts, "user-defined")
          | none => (st0.inputs, mesh1)
        let outputs1 := match sa.sampleOutputs with | some o => some o | none => st0.outputs
        { st0 with
          mesh := inpMesh.2, samplingRatio := ratio1, subAlgName := sub1,
          inputs := inpMesh.1, outputs := outputs1, gradFlag := gradFlag }
    let st2 := { st1 with solverKey := st1.method }
    set_points_and_weights env st2

/-- The mesh resolution as the spec words it: the method-derived default,
overridden by an explicit mesh entry, with explicit sample points forcing
the user-defined mesh over everything else.  Stated from the spec text for
comparison against the embedded constructor. -/
def methodDefaultMesh (basisType m : String) : Option String :=
  if m = "numerical-integration" ∨ m = "integration" then some basisType
  else if m = "least-squares" then some ("tensor-grid")
  else if m = "least-squares-with-gradients" then some ("tensor-grid")
  else if m = "compressed-sensing" ∨ m = "compressive-sensing" then some ("monte-carlo")
  else if m = "minimum-norm" then some ("monte-carlo")
  else none

/-- The full override cascade as the spec words it. -/
def resolvedMeshSpec (basisType m : String) (sargs : Option SArgs) : Option String :=
  match sargs with
  | none => methodDefaultMesh basisType m
  | some sa =>
    if sa.samplePoints.isSome then some ("user-defined")
    else match sa.mesh with
      | some mm => some mm
      | none => methodDefaultMesh basisType m

/-- The list of methods recognised by the constructor dispatch. -/
def knownMethods : List String :=
  ["numerical-integration", "integration", "least-squares",
   "least-squares-with-gradients", "compressed-sensing",
   "compressive-sensing", "minimum-norm"]

theorem methodDefaultMesh_eq_code (bt m : String) (hm : m ∈ knownMethods) :
    methodDefaultMesh bt m = some (methodMeshCode bt m) := by
  fin_cases hm <;> rfl

/-- C5: for a recognised method the constructor resolves the mesh exactly as
the spec words it (method default, then explicit mesh override, then sample
points forcing user-defined), enables gradient mode exactly for
least-squares-with-gradients, adopts the sampling-ratio and
subsampling-algorithm overrides, stores explicit sample points and outputs,
builds the solver from the method, and only then constructs the design:
the final state is `_set_points_and_weights` applied to the fully resolved
configuration. -/
theorem init_resolution (env : Env) (dims : ℕ) (bt : String) (be : List MIdx)
    (m : String) (sargs : Option SArgs) (hm : m ∈ knownMethods) :
    some (initPoly env dims bt be (some m) sargs).mesh = resolvedMeshSpec bt m sargs ∧
    (initPoly env dims bt be (some m) sargs).gradFlag =
      (if m = "least-squares-with-gradients" then 1 else 0) ∧
    (initPoly env dims bt be (some m) sargs).samplingRatio =
      (sargs.bind SArgs.samplingRatio).getD 1 ∧
    (initPoly env dims bt be (some m) sargs).subAlgName = sargs.bind SArgs.subAlg ∧
    (initPoly env dims bt be (some m) sargs).inputs = sargs.bind SArgs.samplePoints ∧
    (initPoly env dims bt be (some m) sargs).outputs = sargs.bind SArgs.sampleOutputs ∧
    (initPoly env dims bt be (some m) sargs).solverKey = some m ∧
    initPoly env dims bt be (some m) sargs =
      set_points_and_weights env
        { emptyState with
          method := some m, dims := dims, basisType := bt, basisElements := be,
          mesh := (initPoly env dims bt be (some m) sargs).mesh,
          samplingRatio := (sargs.bind SArgs.samplingRatio).getD 1,
          subAlgName := sargs.bind SArgs.subAlg,
          inputs := sargs.bind SArgs.samplePoints,
          outputs := sargs.bind SArgs.sampleOutputs,
          gradFlag := (if m = "least-squares-with-gradients" then 1 else 0),
          solverKey := some m } := by
  have hd := methodDefaultMesh_eq_code bt m hm
  rcases sargs with _ | sa
  · simp [initPoly, resolvedMeshSpec, hd, Option.bind, emptyState]
  · obtain ⟨om, orr, os, op, oo⟩ := sa
    rcases om with _ | mm <;> rcases orr with _ | r <;> rcases os with _ | s <;>
      rcases op with _ | pts <;> rcases oo with _ | outs <;>
      simp [initPoly, resolvedMeshSpec, hd, Option.bind, emptyState]

/-- C5 witness: the resolution theorem applied at a concrete construction
with the least-squares-with-gradients method and no sampling overrides. -/
theorem init_resolution_witness :
    some (initPoly envC 1 ("tensor-grid") [[0]] (some ("least-squares-with-gradients")) none).mesh =
      resolvedMeshSpec ("tensor-grid") ("least-squares-with-gradients") none ∧
    (initPoly envC 1 ("tensor-grid") [[0]] (some ("least-squares-with-gradients")) none).gradFlag = 1 :=
  ⟨(init_resolution envC 1 ("tensor-grid") [[0]] ("least-squares-with-gradients") none
      (by decide)).1,
   by
    have h := (init_resolution envC 1 ("tensor-grid") [[0]] ("least-squares-with-gradients") none
      (by decide)).2.1
    simpa using h⟩

/-! ### Sparse-grid solve helpers (`_set_coefficients`, sparse path) -/

/-- Occurrence count of a row in a list of rows (the `counts` returned by
`np.unique(..., return_counts=True)` for one row). -/
def countRow [DecidableEq α] (x : α) (l : List α) : ℕ :=
  (l.filter (fun y => decide (y = x))).length

/-- Embeds lines 405-406 of `poly.py`: stack the tensor points over the
global retained points, take the sorted unique rows with multiplicities
(`np.unique(..., axis=0, return_counts=True)`), and keep the positions in
the unique array whose row occurs twice. -/
def sharedIndices (tensorPts globalPts : List Pt) : List ℕ :=
  let stacked := tensorPts ++ globalPts
  let u := sortDedupLex stacked
  (List.range u.length).filter (fun i => decide (countRow (u.getD i []) stacked = 2))

/-- Embeds the gather `self._model_evaluations[indices]` of line 407: the
global model evaluations indexed by the shared positions. -/
def sparseLocalRhsEvals (tensorPts globalPts : List Pt) (evals : List EVal) : List ℚ :=
  (sharedIndices tensorPts globalPts).map (fun i => ratOf (evals.getD i none))

/-- Embeds the weighted local right-hand side `b = np.dot(W, evals[indices])`
of line 407 for one tensor sub-grid. -/
def sparseLocalB (env : Env) (t : Tensor) (globalPts : List Pt) (evals : List EVal) : List ℚ :=
  let gathered := sparseLocalRhsEvals t.points globalPts evals
  (List.range t.weights.length).map (fun i =>
    env.sqrt (t.weights.getD i 0) * gathered.getD i 0)

/-- Embeds one tensor sub-grid's scaled local solve of line 409:
`self.solver(A, b) * self.quadrature.sparse_weights[counter]`. -/
def sparseLocalCoeffs (env : Env) (st : PolyState) (t : Tensor) (k : ℕ) : List ℚ :=
  (env.solve st.solverKey (designMatrix env t.elements t.points t.weights)
      (sparseLocalB env t st.qpoints st.modelEvals)).map
    (fun c => c * st.quadrature.sparseWeights.getD k 0)

/-- The sum of the coefficients among `pairs` whose multi-index equals `u`
(the claim-side description of the sparse-grid duplicate reconciliation). -/
def sumMatching (u : MIdx) (pairs : List (MIdx × ℚ)) : ℚ :=
  (pairs.map (fun p => if p.1 = u then p.2 else 0)).sum

/-- Embeds `cell2matrix(G, W)` (lines 822-836 of `poly.py`): stack, per
dimension, the rows of `W @ G[i].T`, with the row and column counts taken
from `G[0]` exactly as in the source; `w` is the diagonal of `W`. -/
def cell2matrix (G : List Mat) (w : List ℚ) : Mat :=
  let rows := ((G.headD []).headD []).length
  let cols := (G.headD []).length
  G.flatMap (fun Gi =>
    (List.range rows).map (fun i =>
      (List.range cols).map (fun j => (w.getD i 0) * ((Gi.getD j []).getD i 0))))

/-- Embeds the sparse-grid accumulation loop of `_set_coefficients` (lines
397-413 of `poly.py`): iterate the tensor sub-grids with their counter,
stacking each scaled local solve and its multi-index rows ON TOP of the
accumulated stacks (`np.vstack([new, old])`).  The garbage `np.empty` seed
entries are modelled as zeros; they end up last and are deleted before use
exactly as in the source. -/
def sparseStacks (env : Env) (st : PolyState) : List ℚ × List MIdx :=
  st.quadrature.list.enum.foldl
    (fun acc tk => (sparseLocalCoeffs env st tk.2 tk.1 ++ acc.1, tk.2.elements ++ acc.2))
    ([0], [List.replicate st.dims 0])

/-- Embeds `coefficients = np.delete(coefficients, ..., shape - 1)` of line
415: the stacked scaled local coefficients with the garbage seed removed. -/
def sparseCoeffStack (env : Env) (st : PolyState) : List ℚ :=
  (sparseStacks env st).1.dropLast

/-- Embeds `multindices = np.delete(multindices, shape - 1, 0)` of line 414:
the stacked multi-index rows with the garbage seed row removed. -/
def sparseMidx (env : Env) (st : PolyState) : List MIdx :=
  (sparseStacks env st).2.dropLast

/-- Embeds lines 416-421 of `poly.py`: for every unique (sorted,
deduplicated) multi-index row, sum the stacked coefficients at the positions
whose multi-index row equals it. -/
def sparseFinalCoeffs (env : Env) (st : PolyState) : List ℚ :=
  (sortDedupLex (sparseMidx env st)).map (fun u =>
    ((List.range (sparseMidx env st).length).map (fun j =>
      if (sparseMidx env st).getD j [] = u then (sparseCoeffStack env st).getD j 0 else 0)).sum)

/-- Embeds the solve section of `_set_coefficients` (lines 396-442 of
`poly.py`): the sparse-grid combination path, and otherwise the standard
(optionally gradient-augmented) weighted solve.  The rank diagnostics of the
gradient path (lines 434-439) are prints with no state effect and are not
modelled. -/
def solveBranch (env : Env) (st : PolyState) : PolyState :=
  if st.mesh = "sparse-grid" then
    { st with coefficients := sparseFinalCoeffs env st,
              basisElements := sortDedupLex (sparseMidx env st) }
  else
    let A := designMatrix env st.basisElements st.qpoints st.qweights
    let b := (List.range st.qweights.length).map (fun i =>
      env.sqrt (st.qweights.getD i 0) * ratOf (st.modelEvals.getD i none))
    if st.gradFlag = 1 then
      let dP := get_poly_grad env st.basisElements st.qpoints
      let C := cell2matrix dP (st.qweights.map env.sqrt)
      { st with coefficients := env.solveGrad st.solverKey A b C st.gradEvals }
    else
      { st with coefficients := env.solve st.solverKey A b }

/-! ### Model attachment (`set_model`) and the coefficient solve -/

/-- The `model` argument of `set_model`: absent, a callable, or a
precomputed 2-D array of outputs. -/
inductive ModelArg where
  | noModel
  | callable (f : Pt → EVal)
  | array (y : List (List EVal))

/-- The `model_grads` argument of `set_model`: absent, a callable, or a
precomputed matrix of gradient evaluations. -/
inductive GradArg where
  | noGrad
  | gcallable (g : Pt → List ℚ)
  | garray (m : Mat)

/-- Embeds `evaluate_model` (lines 780-795 of `poly.py`): one evaluation
per point, as a single column. -/
def evaluate_model (pts : List Pt) (f : Pt → EVal) : List EVal := pts.map f

/-- Embeds `evaluate_model_gradients(points, fungrad, format=matrix)`
(lines 741-766 of `poly.py`): one row per point, one column per dimension. -/
def evaluate_model_gradients (pts : List Pt) (g : Pt → List ℚ) : Mat := pts.map g

/-- Embeds the gradient flattening of `set_model` (lines 355-362 of
`poly.py`): the gradient matrix is flattened dimension-major (outer loop
over columns), each entry pre-multiplied by the square root of its point's
quadrature weight. -/
def flattenGrads (env : Env) (st : PolyState) (gv : Mat) : List ℚ :=
  let p := gv.length
  let q := (gv.headD []).length
  (List.range q).flatMap (fun j =>
    (List.range p).map (fun i => env.sqrt (st.qweights.getD i 0) * ((gv.getD i []).getD j 0)))

/-- Embeds lines 342-346 of `poly.py`: evaluate a callable model at the
design points as a one-column array, or take a precomputed array after the
`assert` that its row count equals the design point count; calling with no
model and no stored outputs dereferences `None.shape`.  The column count of
an array is read off its first row (the embedding does not track the column
count of a zero-row array). -/
def modelArray (st : PolyState) (model : ModelArg) : Except Err (List (List EVal)) :=
  match model with
  | .callable f => .ok ((evaluate_model st.qpoints f).map (fun v => [v]))
  | .array y => if y.length = st.qpoints.length then .ok y else .error .assertionFailed
  | .noModel => .error .attributeFailure

/-- Embeds the gradient-evaluation block of `set_model` (lines 350-363 of
`poly.py`), entered only in gradient mode: build the gradient matrix from
the callable or the precomputed array, and store its weighted
dimension-major flattening; absent gradient data dereferences
`None.shape`. -/
def gradBlock (env : Env) (st : PolyState) (grads : GradArg) : Except Err PolyState :=
  match grads with
  | .gcallable g =>
      .ok { st with gradEvals := flattenGrads env st (evaluate_model_gradients st.qpoints g) }
  | .garray gv => .ok { st with gradEvals := flattenGrads env st gv }
  | .noGrad => .error .attributeFailure

deriving instance DecidableEq for Except

/-- The state after `self._model_evaluations = y` in `set_model` (line 349
of `poly.py`): the accepted one-column array is stored as the model
evaluations. -/
def withEvals (st : PolyState) (y : List (List EVal)) : PolyState :=
  { st with modelEvals := y.map (fun r => r.getD 0 none) }

/-- Modelled from the spec: `Basis.prune(number)` (class not under src/)
removes the given number of highest-order rows from the multi-index set,
keeping the first `cardinality - number` rows (spec 4.4: prune down to
`reduced_sample_count - dimensions` rows to keep the system
overdetermined). -/
def pruneBasis (elems : List MIdx) (number : ℕ) : List MIdx :=
  elems.take (elems.length - number)

/-- Embeds the recovery block of `_set_coefficients` (lines 383-394 of
`poly.py`), entered when model evaluations contain NaNs: record the warning
with the NaN count, store the surviving points as explicit user-defined
inputs and the surviving outputs, drop the subsampling algorithm, prune the
basis when its cardinality exceeds the surviving sample count, force the
least-squares method and the user-defined mesh, rebuild the solver
(`_set_solver`) and the design (`_set_points_and_weights`). -/
def recoveryState (env : Env) (st : PolyState) : PolyState :=
  let nans := nanIndices st.modelEvals
  let outs := npDelete st.modelEvals nans none
  let st1 : PolyState :=
    { st with
      warnings := st.warnings ++ [Warn.nan nans.length st.modelEvals.length],
      inputs := some (npDelete st.qpoints nans []),
      outputs := some outs,
      subAlgName := none }
  let pruned :=
    if outs.length < st1.basisElements.length then
      pruneBasis st1.basisElements (st1.basisElements.length - outs.length + st1.dims)
    else st1.basisElements
  let st2 : PolyState :=
    { st1 with
      basisElements := pruned, method := some ("least-squares"), mesh := "user-defined" }
  let st3 := { st2 with solverKey := st2.method }
  set_points_and_weights env st3

mutual

/-- Embeds `set_model` (lines 328-365 of `poly.py`).  If no model is given
and outputs are stored, those are adopted verbatim, with no shape checks and
without the gradient block; otherwise the model is evaluated or taken as a
precomputed array (row-count assert, then the column-count check whose
`raise` statement is the Python-2 form), gradient data is flattened in
gradient mode, the cached statistics handle is cleared, and
`_set_coefficients` runs. -/
def set_model (env : Env) (fuel : ℕ) (st : PolyState) (model : ModelArg) (grads : GradArg) :
    Except Err PolyState :=
  match fuel with
  | 0 => .error .fuelExhausted
  | f + 1 =>
    match model, st.outputs with
    | .noModel, some outs =>
        set_coefficients env f { st with modelEvals := outs, statistics := none } none
    | _, _ =>
      match modelArray st model with
      | .error e => .error e
      | .ok y =>
        if (y.headD []).length ≠ 1 then .error .raiseTupleOfValueError
        else
          match (if (withEvals st y).gradFlag = 1 then gradBlock env (withEvals st y) grads
                 else .ok (withEvals st y)) with
          | .error e => .error e
          | .ok st2 => set_coefficients env f { st2 with statistics := none } none

/-- Embeds `_set_coefficients` (lines 366-442 of `poly.py`).  User-defined
coefficients are stored directly (nothing else changes).  Otherwise, if any
model evaluation is NaN, the recovery block runs: warn with the NaN count,
keep the surviving points as explicit user-defined inputs and the surviving
outputs, drop the subsampling algorithm, prune the basis when it exceeds the
surviving sample count, force least-squares and the user-defined mesh,
rebuild solver and design, and re-enter `set_model` with the surviving
outputs; control then falls through to the mesh dispatch (`solveBranch`)
exactly as in the source, which lacks a `return` after the recursion. -/
def set_coefficients (env : Env) (fuel : ℕ) (st : PolyState) (userCoeffs : Option (List ℚ)) :
    Except Err PolyState :=
  match userCoeffs with
  | some c => .ok { st with coefficients := c }
  | none =>
    if nanIndices st.modelEvals ≠ [] then
      match fuel with
      | 0 => .error .fuelExhausted
      | f + 1 =>
        let outs := npDelete st.modelEvals (nanIndices st.modelEvals) none
        match set_model env f (recoveryState env st) (.array (outs.map (fun v => [v]))) .noGrad with
        | .error e => .error e
        | .ok st5 => .ok (solveBranch env st5)
    else .ok (solveBranch env st)

end

/-! ### Field preservation of the solve dispatch -/

@[simp] theorem solveBranch_statistics (env : Env) (st : PolyState) :
    (solveBranch env st).statistics = st.statistics := by
  unfold solveBranch; split_ifs <;> rfl

@[simp] theorem solveBranch_mesh (env : Env) (st : PolyState) :
    (solveBranch env st).mesh = st.mesh := by
  unfold solveBranch; split_ifs <;> rfl

@[simp] theorem solveBranch_method (env : Env) (st : PolyState) :
    (solveBranch env st).method = st.method := by
  unfold solveBranch; split_ifs <;> rfl

@[simp] theorem solveBranch_inputs (env : Env) (st : PolyState) :
    (solveBranch env st).inputs = st.inputs := by
  unfold solveBranch; split_ifs <;> rfl

@[simp] theorem solveBranch_outputs (env : Env) (st : PolyState) :
    (solveBranch env st).outputs = st.outputs := by
  unfold solveBranch; split_ifs <;> rfl

@[simp] theorem solveBranch_qpoints (env : Env) (st : PolyState) :
    (solveBranch env st).qpoints = st.qpoints := by
  unfold solveBranch; split_ifs <;> rfl

@[simp] theorem solveBranch_qweights (env : Env) (st : PolyState) :
    (solveBranch env st).qweights = st.qweights := by
  unfold solveBranch; split_ifs <;> rfl

@[simp] theorem solveBranch_modelEvals (env : Env) (st : PolyState) :
    (solveBranch env st).modelEvals = st.modelEvals := by
  unfold solveBranch; split_ifs <;> rfl

@[simp] theorem solveBranch_subAlgName (env : Env) (st : PolyState) :
    (solveBranch env st).subAlgName = st.subAlgName := by
  unfold solveBranch; split_ifs <;> rfl

@[simp] theorem solveBranch_solverKey (env : Env) (st : PolyState) :
    (solveBranch env st).solverKey = st.solverKey := by
  unfold solveBranch; split_ifs <;> rfl

@[simp] theorem solveBranch_warnings (env : Env) (st : PolyState) :
    (solveBranch env st).warnings = st.warnings := by
  unfold solveBranch; split_ifs <;> rfl

@[simp] theorem solveBranch_dims (env : Env) (st : PolyState) :
    (solveBranch env st).dims = st.dims := by
  unfold solveBranch; split_ifs <;> rfl

@[simp] theorem solveBranch_A (env : Env) (st : PolyState) :
    (solveBranch env st).A = st.A := by
  unfold solveBranch; split_ifs <;> rfl

theorem solveBranch_basisElements_of_not_sparse (env : Env) (st : PolyState)
    (h : ¬ st.mesh = "sparse-grid") :
    (solveBranch env st).basisElements = st.basisElements := by
  unfold solveBranch; split_ifs <;> simp_all

/-! ### Claims C7, C9, C10 -/

/-- A concrete state with a two-point design, used by run witnesses. -/
def stRun : PolyState :=
  { stNoSub with qpoints := [[0], [1]], qweights := [1, 1] }

/-- A concrete state with stored outputs and gradient mode enabled, used by
the C9 and C10 witnesses. -/
def stW9 : PolyState :=
  { stRun with outputs := some [some 1], gradFlag := 1 }

/-- C7 (code slip): a precomputed output array whose column count is not 1
makes `set_model` abort before storing any coefficients, but through the
Python-2-style statement `raise(ValueError, ...)`, which in Python 3 raises
a `TypeError` — a tuple is not an exception — rather than a `ValueError`
carrying the column-vector message. -/
theorem set_model_bad_columns (env : Env) (f : ℕ) (st : PolyState) (y : List (List EVal))
    (g : GradArg) (hrows : y.length = st.qpoints.length)
    (hcols : (y.headD []).length ≠ 1) :
    set_model env (f + 1) st (.array y) g = .error .raiseTupleOfValueError := by
  cases houts : st.outputs <;>
    simp [set_model, houts, modelArray, hrows] <;>
    exact fun hc => absurd hc (by simpa using hcols)

/-- C7 witness: the abort theorem applied at a concrete two-column array
matching the design's row count. -/
theorem set_model_bad_columns_witness :
    set_model envC 1 stRun (.array [[some 1, some 2], [some 3, some 4]]) .noGrad =
      .error .raiseTupleOfValueError :=
  set_model_bad_columns envC 0 stRun [[some 1, some 2], [some 3, some 4]] .noGrad
    (by decide) (by decide)

theorem set_coefficients_user_eq (env : Env) (fuel : ℕ) (st : PolyState) (c : List ℚ) :
    set_coefficients env fuel st (some c) = .ok { st with coefficients := c } := by
  cases fuel <;> rfl

theorem set_coefficients_clean_eq (env : Env) (fuel : ℕ) (st : PolyState)
    (h : nanIndices st.modelEvals = []) :
    set_coefficients env fuel st none = .ok (solveBranch env st) := by
  cases fuel <;> simp [set_coefficients, h]

theorem set_coefficients_nan_eq (env : Env) (f : ℕ) (st : PolyState)
    (h : nanIndices st.modelEvals ≠ []) :
    set_coefficients env (f + 1) st none =
      match set_model env f (recoveryState env st)
        (.array ((npDelete st.modelEvals (nanIndices st.modelEvals) none).map (fun v => [v])))
        .noGrad with
      | .error e => .error e
      | .ok st5 => .ok (solveBranch env st5) := by
  simp [set_coefficients, h]

/-- Every successful exit of `set_model` passes through `_set_coefficients`
on a state whose cached statistics handle has just been cleared. -/
theorem set_model_ok_implies (env : Env) (f : ℕ) (st : PolyState) (m : ModelArg)
    (g : GradArg) (st' : PolyState)
    (h : set_model env (f + 1) st m g = .ok st') :
    ∃ stx : PolyState, stx.statistics = none ∧
      set_coefficients env f stx none = .ok st' := by
  unfold set_model at h
  split at h
  · exact ⟨_, rfl, h⟩
  · split at h
    · cases h
    · split at h
      · cases h
      · split at h
        · cases h
        · exact ⟨_, rfl, h⟩

theorem stats_invariant (env : Env) :
    ∀ fuel : ℕ,
      (∀ st u st', set_coefficients env fuel st u = .ok st' →
        st'.statistics = st.statistics ∨ st'.statistics = none) ∧
      (∀ st m g st', set_model env fuel st m g = .ok st' → st'.statistics = none) := by
  intro fuel
  induction fuel with
  | zero =>
    constructor
    · intro st u st' h
      cases u with
      | some c =>
        rw [set_coefficients_user_eq] at h
        cases h
        exact Or.inl rfl
      | none =>
        by_cases hnan : nanIndices st.modelEvals = []
        · rw [set_coefficients_clean_eq env 0 st hnan] at h
          cases h
          exact Or.inl (solveBranch_statistics env st)
        · simp [set_coefficients, hnan] at h
    · intro st m g st' h
      simp [set_model] at h
  | succ f ih =>
    constructor
    · intro st u st' h
      cases u with
      | some c =>
        rw [set_coefficients_user_eq] at h
        cases h
        exact Or.inl rfl
      | none =>
        by_cases hnan : nanIndices st.modelEvals = []
        · rw [set_coefficients_clean_eq env (f + 1) st hnan] at h
          cases h
          exact Or.inl (solveBranch_statistics env st)
        · rw [set_coefficients_nan_eq env f st hnan] at h
          split at h
          · cases h
          · cases h
            rename_i st5 hsm
            refine Or.inr ?_
            rw [solveBranch_statistics]
            exact ih.2 _ _ _ _ hsm
    · intro st m g st' h
      obtain ⟨stx, hstx, hsc⟩ := set_model_ok_implies env f st m g st' h
      rcases ih.1 _ _ _ hsc with h1 | h1
      · rw [h1]
        exact hstx
      · exact h1

/-- C9 (amended): every successful `set_model` leaves the cached statistics
handle absent (it is cleared before the coefficient solve and never
repopulated within it), but `_set_coefficients` invoked directly with
user-defined coefficients stores them WITHOUT touching the cached handle. -/
theorem set_model_clears_statistics (env : Env) (fuel : ℕ) (st : PolyState)
    (m : ModelArg) (g : GradArg) :
    (∀ st', set_model env fuel st m g = .ok st' → st'.statistics = none) ∧
    (∀ c, set_coefficients env fuel st (some c) = .ok { st with coefficients := c }) := by
  constructor
  · intro st' h
    exact (stats_invariant env fuel).2 st m g st' h
  · intro c
    simp [set_coefficients]

/-- C9 counterexample: `_set_coefficients` with user-defined coefficients
stores them while a previously cached statistics handle stays in place —
the handle is not set to absent, refuting the claim at this input. -/
theorem user_coefficients_keep_stale_statistics :
    set_coefficients envC 1 { stRun with statistics := some () } (some [5]) =
      .ok { stRun with statistics := some (), coefficients := [5] } ∧
    (some () : Option Unit) ≠ none := by
  constructor
  · rfl
  · simp

/-- C9 witness: a successful concrete `set_model` run whose resulting state,
extracted from the `Except`, has no cached statistics handle; proved by the
amended theorem. -/
theorem set_model_clears_statistics_witness :
    ((set_model envC 2 stW9 .noModel .noGrad).toOption.getD emptyState).statistics = none :=
  (set_model_clears_statistics envC 2 stW9 .noModel .noGrad).1 _
    (by with_unfolding_all decide)

/-- C10: when outputs were supplied at construction and `set_model` is
called with no model, the stored outputs are adopted verbatim as the model
evaluations — no row-count or column-count check against the current design
is performed and the gradient block is never entered even in gradient mode —
and `_set_coefficients` is invoked directly on them (after clearing the
cached statistics handle). -/
theorem set_model_stored_outputs (env : Env) (f : ℕ) (st : PolyState)
    (g : GradArg) (outs : List EVal) (h : st.outputs = some outs) :
    set_model env (f + 1) st .noModel g =
      set_coefficients env f { st with modelEvals := outs, statistics := none } none := by
  simp [set_model, h]

/-- C10 witness: the stored-outputs theorem applied at a concrete state in
gradient mode whose stored outputs do not even match the design's point
count. -/
theorem set_model_stored_outputs_witness :
    set_model envC 1 stW9 .noModel .noGrad =
      set_coefficients envC 0 { stW9 with modelEvals := [some 1], statistics := none } none :=
  set_model_stored_outputs envC 0 stW9 .noGrad [some 1] rfl

/-! ### Claim C3: NaN recovery -/

theorem getD_eq_getElem_of_lt {α : Type _} (l : List α) (i : ℕ) (d : α) (h : i < l.length) :
    l.getD i d = l[i] := by
  rw [List.getD_eq_getElem?_getD, List.getElem?_eq_getElem h]
  rfl

theorem range_filter_getD_map {α : Type _} (l : List α) (q : α → Bool) (d : α) :
    ((List.range l.length).filter (fun i => q (l.getD i d))).map (fun i => l.getD i d) =
      l.filter q := by
  induction l with
  | nil => rfl
  | cons a t ih =>
    rw [List.length_cons, List.range_succ_eq_map]
    by_cases hqa : q a <;>
      simp [List.filter_cons, List.filter_map, List.map_map, Function.comp_def, hqa] <;>
      simpa using ih

theorem range_filter_getD_length {α : Type _} (l : List α) (q : α → Bool) (d : α) :
    ((List.range l.length).filter (fun i => q (l.getD i d))).length = (l.filter q).length := by
  have h := congrArg List.length (range_filter_getD_map l q d)
  simpa using h

theorem length_filter_add_not {α : Type _} (l : List α) (p : α → Bool) :
    (l.filter p).length + (l.filter (fun a => ! p a)).length = l.length := by
  induction l with
  | nil => rfl
  | cons a t ih => by_cases h : p a <;> simp [List.filter_cons, h] <;> omega

theorem length_filter_range_mem (n : ℕ) (idxs : List ℕ) (hnd : idxs.Nodup)
    (hlt : ∀ i ∈ idxs, i < n) :
    ((List.range n).filter (fun i => decide (i ∈ idxs))).length = idxs.length := by
  have h1 : ((List.range n).filter (fun i => decide (i ∈ idxs))).Nodup :=
    (List.nodup_range n).filter _
  have hperm : List.Perm ((List.range n).filter (fun i => decide (i ∈ idxs))) idxs := by
    rw [List.perm_ext_iff_of_nodup h1 hnd]
    intro a
    simp only [List.mem_filter, List.mem_range, decide_eq_true_eq]
    exact ⟨fun h => h.2, fun h => ⟨hlt a h, h⟩⟩
  exact hperm.length_eq

theorem npDelete_length {α : Type _} (l : List α) (idxs : List ℕ) (d : α)
    (hnd : idxs.Nodup) (hlt : ∀ i ∈ idxs, i < l.length) :
    (npDelete l idxs d).length = l.length - idxs.length := by
  unfold npDelete
  rw [List.length_map]
  have hsplit := length_filter_add_not (List.range l.length) (fun i => decide (i ∈ idxs))
  have hmem := length_filter_range_mem l.length idxs hnd hlt
  have hcong : (List.range l.length).filter (fun i => decide (i ∉ idxs)) =
      (List.range l.length).filter (fun i => ! decide (i ∈ idxs)) := by
    apply List.filter_congr
    intro x _
    simp
  rw [hcong]
  simp only [List.length_range] at hsplit
  omega

theorem nanIndices_nodup (l : List EVal) : (nanIndices l).Nodup :=
  (List.nodup_range l.length).filter _

theorem nanIndices_lt (l : List EVal) : ∀ i ∈ nanIndices l, i < l.length := by
  intro i hi
  have h := List.mem_filter.mp hi
  exact List.mem_range.mp h.1

theorem npDelete_nanIndices (l : List EVal) :
    npDelete l (nanIndices l) none = l.filter (fun v => v.isSome) := by
  unfold npDelete
  have hcong : ∀ i ∈ List.range l.length,
      (decide (i ∉ nanIndices l)) = (l.getD i (some 0)).isSome := by
    intro i hi
    have hmem : i ∈ nanIndices l ↔ l.getD i (some 0) = none := by
      unfold nanIndices
      constructor
      · intro h
        exact of_decide_eq_true (List.mem_filter.mp h).2
      · intro h
        exact List.mem_filter.mpr ⟨hi, decide_eq_true h⟩
    rcases hv : l.getD i (some 0) with _ | v <;>
      rw [List.getD_eq_getElem?_getD] at hv <;> simp [hmem, hv]
  rw [List.filter_congr hcong]
  have hmapeq : ((List.range l.length).filter (fun i => (l.getD i (some 0)).isSome)).map
        (fun i => l.getD i none) =
      ((List.range l.length).filter (fun i => (l.getD i (some 0)).isSome)).map
        (fun i => l.getD i (some 0)) := by
    apply List.map_congr_left
    intro i hi
    have hlt := List.mem_range.mp (List.mem_filter.mp hi).1
    rw [getD_eq_getElem_of_lt l i none hlt, getD_eq_getElem_of_lt l i (some 0) hlt]
  rw [hmapeq, range_filter_getD_map l (fun v => v.isSome) (some 0)]

theorem nanIndices_nil_of_no_none (l : List EVal) (h : ∀ v ∈ l, v.isSome = true) :
    nanIndices l = [] := by
  unfold nanIndices
  rw [List.filter_eq_nil_iff]
  intro i hi
  have hlt := List.mem_range.mp hi
  have hmem : l.getD i (some 0) ∈ l := by
    rw [getD_eq_getElem_of_lt l i (some 0) hlt]
    exact List.getElem_mem hlt
  have hs := h _ hmem
  rcases hv : l.getD i (some 0) with _ | v
  · rw [hv] at hs
    simp at hs
  · simp [hv]

theorem nanIndices_survivors (l : List EVal) :
    nanIndices (npDelete l (nanIndices l) none) = [] := by
  rw [npDelete_nanIndices]
  exact nanIndices_nil_of_no_none _ (fun v hv => List.of_mem_filter hv)

theorem unwrap_wrap (outs : List EVal) :
    (outs.map (fun v => [v])).map (fun r => r.getD 0 none) = outs := by
  induction outs with
  | nil => rfl
  | cons a t ih => simpa using ih

theorem recoveryState_fields (env : Env) (st : PolyState) :
    (recoveryState env st).mesh = "user-defined" ∧
    (recoveryState env st).method = some ("least-squares") ∧
    (recoveryState env st).solverKey = some ("least-squares") ∧
    (recoveryState env st).subAlgName = none ∧
    (recoveryState env st).gradFlag = st.gradFlag ∧
    (recoveryState env st).dims = st.dims ∧
    (recoveryState env st).inputs = some (npDelete st.qpoints (nanIndices st.modelEvals) []) ∧
    (recoveryState env st).outputs =
      some (npDelete st.modelEvals (nanIndices st.modelEvals) none) ∧
    (recoveryState env st).qpoints = npDelete st.qpoints (nanIndices st.modelEvals) [] ∧
    (recoveryState env st).warnings =
      st.warnings ++ [Warn.nan (nanIndices st.modelEvals).length st.modelEvals.length] ∧
    (recoveryState env st).basisElements =
      (if (npDelete st.modelEvals (nanIndices st.modelEvals) none).length <
          st.basisElements.length
       then pruneBasis st.basisElements
         (st.basisElements.length -
           (npDelete st.modelEvals (nanIndices st.modelEvals) none).length + st.dims)
       else st.basisElements) ∧
    (recoveryState env st).modelEvals = st.modelEvals := by
  unfold recoveryState
  refine ⟨by simp, by simp, by simp, by simp, by simp, by simp, by simp, by simp, ?_,
    by simp, by simp, by simp⟩
  rw [show (set_points_and_weights env _).qpoints =
      (generate env ("user-defined") (some (npDelete st.qpoints (nanIndices st.modelEvals) []))).points
    from by simp [set_points_and_weights]]
  rfl

theorem set_model_array_eq (env : Env) (f : ℕ) (st : PolyState) (y : List (List EVal))
    (g : GradArg)
    (hrows : y.length = st.qpoints.length)
    (hcols : (y.headD []).length = 1)
    (hgrad : st.gradFlag = 0) :
    set_model env (f + 1) st (.array y) g =
      set_coefficients env f { withEvals st y with statistics := none } none := by
  unfold set_model
  cases houts : st.outputs <;>
  · dsimp only
    rw [show modelArray st (.array y) = .ok y from by simp [modelArray, hrows]]
    dsimp only
    rw [if_neg (not_not_intro hcols)]
    rw [if_neg (show ¬ ((withEvals st y).gradFlag = 1) from by
      show ¬ (st.gradFlag = 1)
      simp [hgrad])]

theorem nan_recovery_run (env : Env) (f : ℕ) (st : PolyState)
    (hlen : st.modelEvals.length = st.qpoints.length)
    (hnan : nanIndices st.modelEvals ≠ [])
    (hk : (nanIndices st.modelEvals).length < st.modelEvals.length)
    (hgrad : st.gradFlag = 0) :
    set_coefficients env (f + 2) st none =
      .ok (solveBranch env (solveBranch env
        { withEvals (recoveryState env st)
            ((npDelete st.modelEvals (nanIndices st.modelEvals) none).map (fun v => [v])) with
          statistics := none })) := by
  obtain ⟨rfmesh, rfmeth, rfskey, rfsub, rfgf, rfdims, rfinp, rfouts, rfqp, rfwarn, rfbe, rfme⟩ :=
    recoveryState_fields env st
  have houtslen : (npDelete st.modelEvals (nanIndices st.modelEvals) none).length =
      st.modelEvals.length - (nanIndices st.modelEvals).length :=
    npDelete_length _ _ _ (nanIndices_nodup _) (nanIndices_lt _)
  have hqlen : (npDelete st.qpoints (nanIndices st.modelEvals) []).length =
      st.qpoints.length - (nanIndices st.modelEvals).length :=
    npDelete_length _ _ _ (nanIndices_nodup _) (by rw [← hlen]; exact nanIndices_lt _)
  have houtsne : npDelete st.modelEvals (nanIndices st.modelEvals) none ≠ [] := by
    intro hO
    rw [hO] at houtslen
    simp only [List.length_nil] at houtslen
    omega
  have hrows : ((npDelete st.modelEvals (nanIndices st.modelEvals) none).map
      (fun v => [v])).length = (recoveryState env st).qpoints.length := by
    rw [List.length_map, rfqp, hqlen, houtslen, hlen]
  have hcols : (((npDelete st.modelEvals (nanIndices st.modelEvals) none).map
      (fun v => [v])).headD []).length = 1 := by
    rcases hO : npDelete st.modelEvals (nanIndices st.modelEvals) none with _ | ⟨a, t⟩
    · exact absurd hO houtsne
    · simp
  have hgradr : (recoveryState env st).gradFlag = 0 := by rw [rfgf, hgrad]
  have hclean : nanIndices ({ withEvals (recoveryState env st)
      ((npDelete st.modelEvals (nanIndices st.modelEvals) none).map (fun v => [v])) with
        statistics := none } : PolyState).modelEvals = [] := by
    show nanIndices (((npDelete st.modelEvals (nanIndices st.modelEvals) none).map
      (fun v => [v])).map (fun r => r.getD 0 none)) = []
    rw [unwrap_wrap]
    exact nanIndices_survivors _
  rw [show (f + 2) = (f + 1) + 1 from rfl,
    set_coefficients_nan_eq env (f + 1) st hnan,
    set_model_array_eq env f (recoveryState env st) _ .noGrad hrows hcols hgradr,
    set_coefficients_clean_eq env f _ hclean]

/-- C3 (amended): when model evaluations contain `k` NaNs out of `n` (with
at least one survivor, no gradient mode, and evaluations matching the design
length as `set_model` guarantees), `_set_coefficients` recovers rather than
failing: the surviving `(point, output)` rows are kept, the final design has
exactly `n - k` points, mesh is forced to user-defined with the surviving
points stored as explicit inputs, method and solver are forced to
least-squares, subsampling is dropped, the NaN warning carrying `k` and `n`
is recorded, the solve proceeds on the surviving outputs, and the basis is
pruned to cardinality `n - k - dimensions` exactly when its cardinality
exceeded the reduced sample count `n - k` (not the claimed threshold
`n - k - dimensions`; between the two bounds no pruning happens). -/
theorem nan_recovery (env : Env) (f : ℕ) (st : PolyState)
    (hlen : st.modelEvals.length = st.qpoints.length)
    (hnan : nanIndices st.modelEvals ≠ [])
    (hk : (nanIndices st.modelEvals).length < st.modelEvals.length)
    (hgrad : st.gradFlag = 0) :
    ∃ st', set_coefficients env (f + 2) st none = .ok st' ∧
      st'.qpoints.length = st.modelEvals.length - (nanIndices st.modelEvals).length ∧
      st'.qpoints = npDelete st.qpoints (nanIndices st.modelEvals) [] ∧
      st'.inputs = some (npDelete st.qpoints (nanIndices st.modelEvals) []) ∧
      st'.modelEvals = npDelete st.modelEvals (nanIndices st.modelEvals) none ∧
      st'.outputs = some (npDelete st.modelEvals (nanIndices st.modelEvals) none) ∧
      st'.mesh = "user-defined" ∧
      st'.method = some ("least-squares") ∧
      st'.solverKey = some ("least-squares") ∧
      st'.subAlgName = none ∧
      Warn.nan (nanIndices st.modelEvals).length st.modelEvals.length ∈ st'.warnings ∧
      (st.modelEvals.length - (nanIndices st.modelEvals).length < st.basisElements.length →
        st'.basisElements.length =
          st.modelEvals.length - (nanIndices st.modelEvals).length - st.dims) := by
  obtain ⟨rfmesh, rfmeth, rfskey, rfsub, rfgf, rfdims, rfinp, rfouts, rfqp, rfwarn, rfbe, rfme⟩ :=
    recoveryState_fields env st
  have houtslen : (npDelete st.modelEvals (nanIndices st.modelEvals) none).length =
      st.modelEvals.length - (nanIndices st.modelEvals).length :=
    npDelete_length _ _ _ (nanIndices_nodup _) (nanIndices_lt _)
  have hqlen : (npDelete st.qpoints (nanIndices st.modelEvals) []).length =
      st.qpoints.length - (nanIndices st.modelEvals).length :=
    npDelete_length _ _ _ (nanIndices_nodup _) (by rw [← hlen]; exact nanIndices_lt _)
  refine ⟨_, nan_recovery_run env f st hlen hnan hk hgrad, ?_, ?_, ?_, ?_, ?_, ?_, ?_, ?_,
    ?_, ?_, ?_⟩
  · rw [solveBranch_qpoints, solveBranch_qpoints]
    show (recoveryState env st).qpoints.length = _
    rw [rfqp, hqlen, hlen]
  · rw [solveBranch_qpoints, solveBranch_qpoints]
    exact rfqp
  · rw [solveBranch_inputs, solveBranch_inputs]
    exact rfinp
  · rw [solveBranch_modelEvals, solveBranch_modelEvals]
    show ((npDelete st.modelEvals (nanIndices st.modelEvals) none).map
      (fun v => [v])).map (fun r => r.getD 0 none) = _
    exact unwrap_wrap _
  · rw [solveBranch_outputs, solveBranch_outputs]
    exact rfouts
  · rw [solveBranch_mesh, solveBranch_mesh]
    exact rfmesh
  · rw [solveBranch_method, solveBranch_method]
    exact rfmeth
  · rw [solveBranch_solverKey, solveBranch_solverKey]
    exact rfskey
  · rw [solveBranch_subAlgName, solveBranch_subAlgName]
    exact rfsub
  · rw [solveBranch_warnings, solveBranch_warnings]
    show Warn.nan _ _ ∈ (recoveryState env st).warnings
    rw [rfwarn]
    simp
  · intro hcard
    have hmesh1 : ¬ (solveBranch env
        ({ withEvals (recoveryState env st)
            ((npDelete st.modelEvals (nanIndices st.modelEvals) none).map (fun v => [v])) with
          statistics := none } : PolyState)).mesh = "sparse-grid" := by
      rw [solveBranch_mesh]
      show (recoveryState env st).mesh ≠ _
      rw [rfmesh]
      decide
    have hmesh0 : ¬ ({ withEvals (recoveryState env st)
        ((npDelete st.modelEvals (nanIndices st.modelEvals) none).map (fun v => [v])) with
          statistics := none } : PolyState).mesh = "sparse-grid" := by
      show (recoveryState env st).mesh ≠ _
      rw [rfmesh]
      decide
    rw [solveBranch_basisElements_of_not_sparse _ _ hmesh1,
      solveBranch_basisElements_of_not_sparse _ _ hmesh0]
    show (recoveryState env st).basisElements.length = _
    rw [rfbe, if_pos (by omega), pruneBasis, List.length_take]
    rw [houtslen]
    omega

/-- A concrete state with three evaluations, one NaN, one dimension and a
two-row basis: the reduced sample count is 2 while the claimed pruning bound
is n - k - dimensions = 1. -/
def stC3 : PolyState :=
  { stRun with
    qpoints := [[0], [1], [2]], qweights := [1, 1, 1],
    modelEvals := [some 1, none, some 2] }

/-- Like `stC3` but with a four-row basis, so the recovery path prunes
(4 exceeds n - k = 2) down to n - k - dimensions = 1 row. -/
def stC3p : PolyState :=
  { stC3 with basisElements := [[0], [1], [2], [3]] }

/-- C3 counterexample: with n = 3 evaluations, k = 1 NaN, one dimension and
original basis cardinality 2 — which exceeds n - k - dimensions = 1 — the
recovery path finishes with the basis still at cardinality 2, because the
source prunes only when the cardinality exceeds the reduced sample count
n - k = 2; the claimed bound is violated at this input. -/
theorem recovery_prune_threshold_cex :
    ((set_coefficients envC 2 stC3 none).toOption.map (fun s => s.basisElements.length)) =
      some 2 ∧ ¬ (2 ≤ 3 - 1 - 1) := by
  constructor
  · with_unfolding_all decide
  · decide

/-- C3 witness: the amended recovery theorem applied at the concrete state
`stC3p`, discharging every hypothesis by evaluation. -/
theorem nan_recovery_witness :
    ∃ st', set_coefficients envC 2 stC3p none = .ok st' ∧
      st'.qpoints.length = stC3p.modelEvals.length - (nanIndices stC3p.modelEvals).length ∧
      st'.qpoints = npDelete stC3p.qpoints (nanIndices stC3p.modelEvals) [] ∧
      st'.inputs = some (npDelete stC3p.qpoints (nanIndices stC3p.modelEvals) []) ∧
      st'.modelEvals = npDelete stC3p.modelEvals (nanIndices stC3p.modelEvals) none ∧
      st'.outputs = some (npDelete stC3p.modelEvals (nanIndices stC3p.modelEvals) none) ∧
      st'.mesh = "user-defined" ∧
      st'.method = some ("least-squares") ∧
      st'.solverKey = some ("least-squares") ∧
      st'.subAlgName = none ∧
      Warn.nan (nanIndices stC3p.modelEvals).length stC3p.modelEvals.length ∈ st'.warnings ∧
      (stC3p.modelEvals.length - (nanIndices stC3p.modelEvals).length <
          stC3p.basisElements.length →
        st'.basisElements.length =
          stC3p.modelEvals.length - (nanIndices stC3p.modelEvals).length - stC3p.dims) :=
  nan_recovery envC 0 stC3p (by decide) (by decide) (by decide) (by decide)

/-! ### Claim C1: the sparse-grid right-hand-side gather -/

theorem mem_sortDedupLex [LinearOrder α] [DecidableEq α] (l : List α) (a : α) :
    a ∈ sortDedupLex l ↔ a ∈ l := by
  unfold sortDedupLex
  rw [Finset.mem_sort]
  exact List.mem_toFinset

theorem sortDedupLex_nodup [LinearOrder α] [DecidableEq α] (l : List α) :
    (sortDedupLex l).Nodup :=
  Finset.sort_nodup _ _

theorem sortDedupLex_toFinset [LinearOrder α] [DecidableEq α] (l : List α) :
    (sortDedupLex l).toFinset = l.toFinset := by
  unfold sortDedupLex
  exact Finset.sort_toFinset _ _

theorem sortDedupLex_congr [LinearOrder α] [DecidableEq α] (l l' : List α)
    (h : l.toFinset = l'.toFinset) : sortDedupLex l = sortDedupLex l' := by
  unfold sortDedupLex
  rw [h]

theorem sortDedupLex_append_subset [LinearOrder α] [DecidableEq α] (t g : List α)
    (h : ∀ x ∈ t, x ∈ g) :
    sortDedupLex (t ++ sortDedupLex g) = sortDedupLex g := by
  apply sortDedupLex_congr
  rw [List.toFinset_append, sortDedupLex_toFinset]
  apply Finset.union_eq_right.mpr
  intro x hx
  rw [List.mem_toFinset] at hx ⊢
  exact h x hx

theorem countRow_cons [DecidableEq α] (x a : α) (t : List α) :
    countRow x (a :: t) = (if a = x then 1 else 0) + countRow x t := by
  unfold countRow
  rw [List.filter_cons]
  by_cases h : a = x <;> simp [h, Nat.add_comm]

theorem countRow_append [DecidableEq α] (x : α) (l1 l2 : List α) :
    countRow x (l1 ++ l2) = countRow x l1 + countRow x l2 := by
  unfold countRow
  rw [List.filter_append, List.length_append]

theorem countRow_eq_zero [DecidableEq α] {x : α} {l : List α} (h : x ∉ l) :
    countRow x l = 0 := by
  induction l with
  | nil => rfl
  | cons a t ih =>
    rw [countRow_cons]
    have hax : ¬ (a = x) := fun he => h (he ▸ List.mem_cons_self a t)
    have hxt : x ∉ t := fun hm => h (List.mem_cons_of_mem a hm)
    rw [if_neg hax, ih hxt]

theorem countRow_eq_one [DecidableEq α] {x : α} {l : List α} (hnd : l.Nodup) (h : x ∈ l) :
    countRow x l = 1 := by
  induction l with
  | nil => cases h
  | cons a t ih =>
    rw [countRow_cons]
    rcases List.mem_cons.mp h with rfl | hmem
    · rw [if_pos rfl, countRow_eq_zero (List.nodup_cons.mp hnd).1]
    · have hax : ¬ (a = x) := by
        rintro rfl
        exact (List.nodup_cons.mp hnd).1 hmem
      rw [if_neg hax, ih (List.nodup_cons.mp hnd).2 hmem]

theorem filter_mem_length_eq (g t : List Pt) (hgnd : g.Nodup)
    (htnd : t.Nodup) (hsub : ∀ x ∈ t, x ∈ g) :
    (g.filter (fun x => decide (x ∈ t))).length = t.length := by
  have h1 : (g.filter (fun x => decide (x ∈ t))).Nodup := hgnd.filter _
  have hperm : List.Perm (g.filter (fun x => decide (x ∈ t))) t := by
    rw [List.perm_ext_iff_of_nodup h1 htnd]
    intro a
    simp only [List.mem_filter, decide_eq_true_eq]
    exact ⟨fun h => h.2, fun h => ⟨hsub a h, h⟩⟩
  exact hperm.length_eq

/-- C1: with the global retained sparse-grid design modelled from the spec
as the sorted deduplicated union of the tensor sub-grids' points (so each
sub-grid's points, pairwise distinct, occur among the global rows), the
unique-plus-counts gather of lines 405-407 indexes the model evaluations at
EXACTLY the rows of the global design whose point coordinates match the
sub-grid's points — a point present in both lists counts as shared — and
produces one entry per sub-grid point. -/
theorem sparse_rhs_gather (tensorPts globalRaw : List Pt) (evals : List EVal)
    (hnd : tensorPts.Nodup)
    (hsub : ∀ p ∈ tensorPts, p ∈ globalRaw) :
    sparseLocalRhsEvals tensorPts (sortDedupLex globalRaw) evals =
      ((List.range (sortDedupLex globalRaw).length).filter
        (fun i => decide ((sortDedupLex globalRaw).getD i [] ∈ tensorPts))).map
        (fun i => ratOf (evals.getD i none)) ∧
    (sparseLocalRhsEvals tensorPts (sortDedupLex globalRaw) evals).length =
      tensorPts.length := by
  have hsub' : ∀ p ∈ tensorPts, p ∈ sortDedupLex globalRaw := fun p hp =>
    (mem_sortDedupLex _ _).mpr (hsub p hp)
  have hu : sortDedupLex (tensorPts ++ sortDedupLex globalRaw) = sortDedupLex globalRaw :=
    sortDedupLex_append_subset _ _ hsub
  have hgnd : (sortDedupLex globalRaw).Nodup := sortDedupLex_nodup _
  have hshared : sharedIndices tensorPts (sortDedupLex globalRaw) =
      (List.range (sortDedupLex globalRaw).length).filter
        (fun i => decide ((sortDedupLex globalRaw).getD i [] ∈ tensorPts)) := by
    unfold sharedIndices
    dsimp only
    rw [hu]
    apply List.filter_congr
    intro i hi
    have hlt := List.mem_range.mp hi
    have hmemg : (sortDedupLex globalRaw).getD i [] ∈ sortDedupLex globalRaw := by
      rw [getD_eq_getElem_of_lt _ _ _ hlt]
      exact List.getElem_mem hlt
    rw [countRow_append, countRow_eq_one hgnd hmemg]
    by_cases hm : (sortDedupLex globalRaw).getD i [] ∈ tensorPts
    · rw [countRow_eq_one hnd hm, decide_eq_true hm]
      decide
    · rw [countRow_eq_zero hm, decide_eq_false hm]
      decide
  constructor
  · unfold sparseLocalRhsEvals
    rw [hshared]
  · unfold sparseLocalRhsEvals
    rw [hshared, List.length_map,
      range_filter_getD_length (sortDedupLex globalRaw)
        (fun p => decide (p ∈ tensorPts)) []]
    exact filter_mem_length_eq _ _ hgnd hnd hsub'

/-- C1 witness: the gather theorem applied at a one-point tensor sub-grid
inside a two-point global design; the single shared row is row 1 and the
gathered right-hand side is the evaluation stored there. -/
theorem sparse_rhs_gather_witness :
    sparseLocalRhsEvals [[(1 : ℚ)]] (sortDedupLex [[(0 : ℚ)], [1]]) [some 5, some 7] =
      ((List.range (sortDedupLex [[(0 : ℚ)], [1]]).length).filter
        (fun i => decide ((sortDedupLex [[(0 : ℚ)], [1]]).getD i [] ∈ [[(1 : ℚ)]]))).map
        (fun i => ratOf (([some 5, some 7] : List EVal).getD i none)) ∧
    (sparseLocalRhsEvals [[(1 : ℚ)]] (sortDedupLex [[(0 : ℚ)], [1]]) [some 5, some 7]).length =
      ([[(1 : ℚ)]] : List Pt).length :=
  sparse_rhs_gather [[(1 : ℚ)]] [[(0 : ℚ)], [1]] [some 5, some 7]
    (by with_unfolding_all decide) (by with_unfolding_all decide)

/-! ### Claim C4: sparse-grid deduplication and coefficient reconciliation -/

theorem foldl_prepend_pair {β γ δ : Type _} (g1 : β → List γ) (g2 : β → List δ)
    (l : List β) (a : List γ) (b : List δ) :
    l.foldl (fun acc x => (g1 x ++ acc.1, g2 x ++ acc.2)) (a, b) =
      (((l.map g1).reverse).flatten ++ a, ((l.map g2).reverse).flatten ++ b) := by
  induction l generalizing a b with
  | nil => simp
  | cons x xs ih =>
    rw [List.foldl_cons]
    rw [ih (g1 x ++ a) (g2 x ++ b)]
    simp [List.flatten_append]

theorem sum_range_ite_getD (u : MIdx) (ms : List MIdx) (cs : List ℚ)
    (h : ms.length = cs.length) :
    ((List.range ms.length).map (fun j =>
      if ms.getD j [] = u then cs.getD j 0 else 0)).sum = sumMatching u (ms.zip cs) := by
  induction ms generalizing cs with
  | nil => simp [sumMatching]
  | cons m tm ih =>
    rcases cs with _ | ⟨c, tc⟩
    · simp at h
    · have h' : tm.length = tc.length := by simpa using h
      rw [List.length_cons, List.range_succ_eq_map, List.map_cons, List.sum_cons,
        List.map_map]
      have hcomp : ((fun j => if (m :: tm).getD j [] = u then (c :: tc).getD j 0 else 0) ∘
          Nat.succ) = (fun j => if tm.getD j [] = u then tc.getD j 0 else 0) := by
        funext j
        rfl
      rw [hcomp, ih tc h']
      show (if m = u then c else 0) + sumMatching u (tm.zip tc) =
        sumMatching u ((m, c) :: tm.zip tc)
      unfold sumMatching
      rw [List.map_cons, List.sum_cons]

theorem zip_flatten_blocks (L : List (List MIdx × List ℚ))
    (hlen : ∀ p ∈ L, p.1.length = p.2.length) :
    ((L.map Prod.fst).flatten).zip ((L.map Prod.snd).flatten) =
      (L.map (fun p => p.1.zip p.2)).flatten := by
  induction L with
  | nil => rfl
  | cons p tL ih =>
    simp only [List.map_cons, List.flatten_cons]
    rw [List.zip_append (hlen p (List.mem_cons_self p tL)),
      ih (fun q hq => hlen q (List.mem_cons_of_mem p hq))]

theorem sumMatching_append (u : MIdx) (ps qs : List (MIdx × ℚ)) :
    sumMatching u (ps ++ qs) = sumMatching u ps + sumMatching u qs := by
  unfold sumMatching
  rw [List.map_append, List.sum_append]

theorem sumMatching_flatten (u : MIdx) (L : List (List (MIdx × ℚ))) :
    sumMatching u L.flatten = (L.map (fun ps => sumMatching u ps)).sum := by
  induction L with
  | nil => rfl
  | cons ps tL ih =>
    rw [List.flatten_cons, sumMatching_append, List.map_cons, List.sum_cons, ih]

theorem flatten_length_eq (L : List (List MIdx × List ℚ))
    (hlen : ∀ p ∈ L, p.1.length = p.2.length) :
    (L.map Prod.fst).flatten.length = (L.map Prod.snd).flatten.length := by
  induction L with
  | nil => rfl
  | cons p tL ih =>
    simp only [List.map_cons, List.flatten_cons, List.length_append]
    rw [hlen p (List.mem_cons_self p tL),
      ih (fun q hq => hlen q (List.mem_cons_of_mem p hq))]

theorem getD_map_lt {α β : Type _} (l : List α) (f : α → β) (d : β) (d' : α) (i : ℕ)
    (h : i < l.length) :
    (l.map f).getD i d = f (l.getD i d') := by
  rw [getD_eq_getElem_of_lt _ _ _ (by simpa using h), getD_eq_getElem_of_lt _ _ _ h,
    List.getElem_map]

/-- The per-tensor blocks of the sparse accumulation: each tensor sub-grid
(with its counter) paired as (local multi-index rows, scaled local
coefficients). -/
def sparseBlocks (env : Env) (st : PolyState) : List (List MIdx × List ℚ) :=
  st.quadrature.list.enum.map (fun tk => (tk.2.elements, sparseLocalCoeffs env st tk.2 tk.1))

theorem sparseMidx_eq (env : Env) (st : PolyState) :
    sparseMidx env st = (((sparseBlocks env st).map Prod.fst).reverse).flatten := by
  unfold sparseMidx sparseStacks sparseBlocks
  rw [foldl_prepend_pair (fun tk : ℕ × Tensor => sparseLocalCoeffs env st tk.2 tk.1)
    (fun tk : ℕ × Tensor => tk.2.elements)]
  show ((((st.quadrature.list.enum.map (fun tk : ℕ × Tensor => tk.2.elements))).reverse).flatten ++
    [List.replicate st.dims 0]).dropLast = _
  rw [List.dropLast_concat, List.map_map]
  rfl

theorem sparseCoeffStack_eq (env : Env) (st : PolyState) :
    sparseCoeffStack env st = (((sparseBlocks env st).map Prod.snd).reverse).flatten := by
  unfold sparseCoeffStack sparseStacks sparseBlocks
  rw [foldl_prepend_pair (fun tk : ℕ × Tensor => sparseLocalCoeffs env st tk.2 tk.1)
    (fun tk : ℕ × Tensor => tk.2.elements)]
  show ((((st.quadrature.list.enum.map
      (fun tk : ℕ × Tensor => sparseLocalCoeffs env st tk.2 tk.1))).reverse).flatten ++
    [(0 : ℚ)]).dropLast = _
  rw [List.dropLast_concat, List.map_map]
  rfl

theorem solveBranch_sparse_eq (env : Env) (st : PolyState)
    (hmesh : st.mesh = "sparse-grid") :
    solveBranch env st =
      { st with coefficients := sparseFinalCoeffs env st,
                basisElements := sortDedupLex (sparseMidx env st) } := by
  unfold solveBranch
  rw [if_pos hmesh]

/-- C4: after the sparse-grid solve, the basis's multi-index set is replaced
by the sorted deduplicated union of all tensor sub-grids' local multi-index
sets, the coefficient vector has exactly one entry per unique multi-index —
so its length equals the new basis cardinality — and, provided each local
solve returns one coefficient per local basis row (the LinearSolver
contract), the entry at row `i` is the sum over all sub-grids of their
combination-weight-scaled local coefficients at the rows matching that
multi-index (so a multi-index appearing in several sub-grids gets the sum of
its scaled local coefficients). -/
theorem sparse_dedup_union (env : Env) (st : PolyState)
    (hmesh : st.mesh = "sparse-grid")
    (hlen : ∀ tk ∈ st.quadrature.list.enum,
      (sparseLocalCoeffs env st tk.2 tk.1).length = tk.2.elements.length) :
    ((solveBranch env st).basisElements =
      sortDedupLex (st.quadrature.list.flatMap Tensor.elements)) ∧
    (solveBranch env st).coefficients.length = (solveBranch env st).basisElements.length ∧
    (∀ i, i < (solveBranch env st).basisElements.length →
      (solveBranch env st).coefficients.getD i 0 =
        (st.quadrature.list.enum.map (fun tk =>
          sumMatching ((solveBranch env st).basisElements.getD i [])
            (tk.2.elements.zip (sparseLocalCoeffs env st tk.2 tk.1)))).sum) := by
  have hblock : ∀ p ∈ sparseBlocks env st, p.1.length = p.2.length := by
    intro p hp
    unfold sparseBlocks at hp
    obtain ⟨tk, htk, rfl⟩ := List.mem_map.mp hp
    exact (hlen tk htk).symm
  have hblockrev : ∀ p ∈ (sparseBlocks env st).reverse, p.1.length = p.2.length := by
    intro p hp
    exact hblock p (List.mem_reverse.mp hp)
  have hmidx : sparseMidx env st = (((sparseBlocks env st).reverse).map Prod.fst).flatten := by
    rw [sparseMidx_eq, List.map_reverse]
  have hcoef : sparseCoeffStack env st =
      (((sparseBlocks env st).reverse).map Prod.snd).flatten := by
    rw [sparseCoeffStack_eq, List.map_reverse]
  have hlensk : (sparseMidx env st).length = (sparseCoeffStack env st).length := by
    rw [hmidx, hcoef]
    exact flatten_length_eq _ hblockrev
  have hfirst : (solveBranch env st).basisElements =
      sortDedupLex (st.quadrature.list.flatMap Tensor.elements) := by
    rw [solveBranch_sparse_eq env st hmesh]
    show sortDedupLex (sparseMidx env st) = _
    apply sortDedupLex_congr
    apply Finset.ext
    intro x
    have hmm : (st.quadrature.list.enum.map (fun tk => tk.2.elements)) =
        st.quadrature.list.map Tensor.elements := by
      rw [show (fun tk : ℕ × Tensor => tk.2.elements) = (Tensor.elements ∘ Prod.snd)
        from rfl, ← List.map_map, List.enum_map_snd]
    rw [List.mem_toFinset, List.mem_toFinset, hmidx]
    unfold sparseBlocks
    rw [List.map_reverse, List.map_map]
    simp only [Function.comp_def]
    rw [hmm]
    simp only [List.mem_flatten, List.mem_reverse, List.mem_map, List.mem_flatMap]
    constructor
    · rintro ⟨B, ⟨t, ht, rfl⟩, hx⟩
      exact ⟨t, ht, hx⟩
    · rintro ⟨t, ht, hx⟩
      exact ⟨t.elements, ⟨t, ht, rfl⟩, hx⟩
  refine ⟨hfirst, ?_, ?_⟩
  · rw [solveBranch_sparse_eq env st hmesh]
    show (sparseFinalCoeffs env st).length = (sortDedupLex (sparseMidx env st)).length
    unfold sparseFinalCoeffs
    rw [List.length_map]
  · intro i hi
    rw [solveBranch_sparse_eq env st hmesh] at hi ⊢
    dsimp only at hi ⊢
    set u := (sortDedupLex (sparseMidx env st)).getD i [] with hu
    unfold sparseFinalCoeffs
    rw [getD_map_lt _ _ _ [] i hi]
    rw [sum_range_ite_getD _ _ _ hlensk]
    rw [hmidx, hcoef, zip_flatten_blocks _ hblockrev, sumMatching_flatten]
    rw [List.map_map, List.map_reverse, List.sum_reverse]
    rw [← hmidx]
    show ((sparseBlocks env st).map (fun p => sumMatching u (p.1.zip p.2))).sum = _
    unfold sparseBlocks
    rw [List.map_map]
    rfl

/-- A two-tensor sparse-grid state sharing the multi-index `[1]` between the
sub-grids, used as the C4 witness. -/
def stC4 : PolyState :=
  { stRun with
    mesh := "sparse-grid",
    qpoints := [[0], [1], [2]],
    qweights := [1, 1, 1],
    modelEvals := [some 1, some 2, some 3],
    quadrature :=
      { points := [[0], [1], [2]],
        weights := [1, 1, 1],
        list := [{ points := [[0], [1]], weights := [1, 1], elements := [[0], [1]] },
                 { points := [[1], [2]], weights := [1, 1], elements := [[1], [2]] }],
        sparseWeights := [1, 1] } }

/-- C4 witness: the deduplication theorem applied at the concrete two-tensor
sparse-grid state, discharging the solver-length contract by evaluation. -/
theorem sparse_dedup_union_witness :
    ((solveBranch envC stC4).basisElements =
      sortDedupLex (stC4.quadrature.list.flatMap Tensor.elements)) ∧
    (solveBranch envC stC4).coefficients.length = (solveBranch envC stC4).basisElements.length ∧
    (∀ i, i < (solveBranch envC stC4).basisElements.length →
      (solveBranch envC stC4).coefficients.getD i 0 =
        (stC4.quadrature.list.enum.map (fun tk =>
          sumMatching ((solveBranch envC stC4).basisElements.getD i [])
            (tk.2.elements.zip (sparseLocalCoeffs envC stC4 tk.2 tk.1)))).sum) :=
  sparse_dedup_union envC stC4 rfl (by with_unfolding_all decide)

end EQ
